import Mathlib

/-!
Shallow embedding of the measurement-decoding core of the netatmo weather
client (package `netatmo`).

The embedded functions mirror the Go source:
* `handleFloat`, `handleInt` — the two sentinel-resolution helpers;
* `buildGetMeasureResponse` — the response-to-record transformation;
* `GetMeasureByNewest` — the newest-read access pattern.

Modelling choices:
* Go `*float64` cells become `Option ℚ`; the code only compares cells with
  `0.0` and truncates them toward zero, both of which `ℚ` captures exactly.
* Go slice indexing `m[k]` panics when `k ≥ len(m)`; a panic aborts the call
  without returning, so the result type `GoMeasures` has a dedicated
  constructor `panic`, distinct from the error return (`fail`) and from the
  normal returns (`success`).
* The `json.Unmarshal` step is external input to the core: the function takes
  the already-parsed outcome `Except String (List measureBody)`, where
  `Except.error` models an unmarshal failure (Go returns `nil, err` there).
* Go `([]Measure, error)` with a `nil` error becomes `success : Option (List
  Measure)`; `success none` is the Go `nil, nil` no-data return.
-/

namespace Netatmo

/-- `TargetMeasurements` from the source: the fixed ordered list of requested
metric names. -/
def TargetMeasurements : List String :=
  ["Temperature", "CO2", "Humidity", "Pressure", "Noise", "WindStrength",
   "WindAngle", "GustStrength", "GustAngle"]

/-- `Measure` from the source: one decoded per-timestamp record. -/
structure Measure where
  DeviceID : String
  ModuleID : String
  Timestamp : Int
  Temperature : Option ℚ
  CO2 : Option Int
  Humidity : Option Int
  Pressure : Option ℚ
  Noise : Option Int
  WindStrength : Option Int
  WindAngle : Option Int
  GustStrength : Option Int
  GustAngle : Option Int
deriving DecidableEq, Repr

/-- `measureBody` from the source: one time-series block of the response. -/
structure measureBody where
  BeginTime : Int
  StepTime : Int
  Value : List (List (Option ℚ))
deriving DecidableEq, Repr

/-- Go `int(x)` conversion of a numeric value: truncation toward zero. -/
def truncTowardZero (q : ℚ) : Int :=
  if 0 ≤ q then ⌊q⌋ else ⌈q⌉

/-- `handleFloat` from the source. -/
def handleFloat : Option ℚ → Option ℚ
  | none => none
  | some v => if v = 0 then none else some v

/-- `handleInt` from the source. -/
def handleInt : Option ℚ → Option Int
  | none => none
  | some v => if v = 0 then none else some (truncTowardZero v)

/-- One iteration of the inner loop of `buildGetMeasureResponse`: build the
record for row `m` at index `i` of a block. The Go code indexes `m[0]`..`m[8]`;
when the row has fewer than 9 cells that indexing panics, modelled by `none`. -/
def buildMeasure (deviceID moduleID : String) (beginTime stepTime : Int)
    (i : Nat) : List (Option ℚ) → Option Measure
  | c0 :: c1 :: c2 :: c3 :: c4 :: c5 :: c6 :: c7 :: c8 :: _ =>
    some
      { DeviceID := deviceID, ModuleID := moduleID,
        Timestamp := beginTime + stepTime * (i : Int),
        Temperature := handleFloat c0, CO2 := handleInt c1,
        Humidity := handleInt c2, Pressure := handleFloat c3,
        Noise := handleInt c4, WindStrength := handleInt c5,
        WindAngle := handleInt c6, GustStrength := handleInt c7,
        GustAngle := handleInt c8 }
  | _ => none

/-- The inner loop `for i, m := range v.Value` of `buildGetMeasureResponse`,
starting at row index `i`. A panic on any row aborts the whole call (`none`). -/
def expandRows (deviceID moduleID : String) (beginTime stepTime : Int) :
    Nat → List (List (Option ℚ)) → Option (List Measure)
  | _, [] => some []
  | i, row :: rest =>
    match buildMeasure deviceID moduleID beginTime stepTime i row with
    | none => none
    | some m =>
      match expandRows deviceID moduleID beginTime stepTime (i + 1) rest with
      | none => none
      | some ms => some (m :: ms)

/-- The outer loop `for _, v := range response.Body` of
`buildGetMeasureResponse`: records of all blocks, appended in order. -/
def expandBody (deviceID moduleID : String) :
    List measureBody → Option (List Measure)
  | [] => some []
  | b :: rest =>
    match expandRows deviceID moduleID b.BeginTime b.StepTime 0 b.Value with
    | none => none
    | some ms =>
      match expandBody deviceID moduleID rest with
      | none => none
      | some ms2 => some (ms ++ ms2)

/-- The possible outcomes of the Go call
`buildGetMeasureResponse(deviceID, moduleID, data) ([]Measure, error)`:
a returned error value (`fail`, from `json.Unmarshal`), a runtime panic
(`panic`, from out-of-range row indexing), or a normal return (`success`),
where `success none` is the `nil, nil` no-data return and `success (some ms)`
the `measures, nil` return. -/
inductive GoMeasures where
  | fail : String → GoMeasures
  | success : Option (List Measure) → GoMeasures
  | panic : GoMeasures
deriving DecidableEq, Repr

/-- `true` exactly on the error-return outcome (`nil, err` in Go). -/
def GoMeasures.isFail : GoMeasures → Bool
  | GoMeasures.fail _ => true
  | _ => false

/-- `buildGetMeasureResponse` from the source, over the parsed body
(`Except.error` models a `json.Unmarshal` failure). -/
def buildGetMeasureResponse (deviceID moduleID : String)
    (data : Except String (List measureBody)) : GoMeasures :=
  match data with
  | Except.error e => GoMeasures.fail e
  | Except.ok response =>
    match expandBody deviceID moduleID response with
    | none => GoMeasures.panic
    | some measures =>
      if measures.length = 0 then GoMeasures.success none
      else GoMeasures.success (some measures)

/-- The possible outcomes of the Go call
`GetMeasureByNewest(deviceID, moduleID) (*Measure, error)`: a returned error
(`fail`), the `nil, nil` no-data return (`noData`), a record (`ok`), or a
runtime panic (`panic`). -/
inductive GoNewest where
  | fail : String → GoNewest
  | noData : GoNewest
  | ok : Measure → GoNewest
  | panic : GoNewest
deriving DecidableEq, Repr

/-- `GetMeasureByNewest` from the source (the decoding part, after the HTTP
fetch): builds the measures and returns `&measures[len(measures)-1]`. Indexing
an empty slice at position `-1` would panic. -/
def GetMeasureByNewest (deviceID moduleID : String)
    (data : Except String (List measureBody)) : GoNewest :=
  match buildGetMeasureResponse deviceID moduleID data with
  | GoMeasures.fail e => GoNewest.fail e
  | GoMeasures.panic => GoNewest.panic
  | GoMeasures.success none => GoNewest.noData
  | GoMeasures.success (some measures) =>
    match measures.getLast? with
    | none => GoNewest.panic
    | some m => GoNewest.ok m

/-- Derived description of the record built from a row of width at least 9:
the cells at indices 0..8 resolved by the sentinel helpers, in the fixed
metric order of `TargetMeasurements`. -/
def recordOfRow (deviceID moduleID : String) (ts : Int)
    (row : List (Option ℚ)) : Measure :=
  { DeviceID := deviceID, ModuleID := moduleID, Timestamp := ts,
    Temperature := handleFloat (row.getD 0 none),
    CO2 := handleInt (row.getD 1 none),
    Humidity := handleInt (row.getD 2 none),
    Pressure := handleFloat (row.getD 3 none),
    Noise := handleInt (row.getD 4 none),
    WindStrength := handleInt (row.getD 5 none),
    WindAngle := handleInt (row.getD 6 none),
    GustStrength := handleInt (row.getD 7 none),
    GustAngle := handleInt (row.getD 8 none) }

/-- `true` exactly on the error-return outcome of `GetMeasureByNewest`. -/
def GoNewest.isFail : GoNewest → Bool
  | GoNewest.fail _ => true
  | _ => false

/-!  Characterization lemmas for the embedded decoder. -/

theorem buildMeasure_eq (dev mid : String) (beg step : Int) (i : Nat)
    (row : List (Option ℚ)) :
    buildMeasure dev mid beg step i row =
      if 9 ≤ row.length then
        some (recordOfRow dev mid (beg + step * (i : Int)) row)
      else none := by
  match row with
  | c0 :: c1 :: c2 :: c3 :: c4 :: c5 :: c6 :: c7 :: c8 :: rest =>
    simp [buildMeasure, recordOfRow, List.getD]
  | [] => simp [buildMeasure]
  | [_] => simp [buildMeasure]
  | [_, _] => simp [buildMeasure]
  | [_, _, _] => simp [buildMeasure]
  | [_, _, _, _] => simp [buildMeasure]
  | [_, _, _, _, _] => simp [buildMeasure]
  | [_, _, _, _, _, _] => simp [buildMeasure]
  | [_, _, _, _, _, _, _] => simp [buildMeasure]
  | [_, _, _, _, _, _, _, _] => simp [buildMeasure]

theorem expandRows_eq_some (dev mid : String) (beg step : Int) :
    ∀ (i : Nat) (rows : List (List (Option ℚ))),
      (∀ r ∈ rows, 9 ≤ r.length) →
      expandRows dev mid beg step i rows =
        some ((rows.enumFrom i).map
          (fun p => recordOfRow dev mid (beg + step * (p.1 : Int)) p.2))
  | _, [], _ => by simp [expandRows]
  | i, r :: rest, h => by
    have hr : 9 ≤ r.length := h r (by simp)
    have ih := expandRows_eq_some dev mid beg step (i + 1) rest
      (fun x hx => h x (by simp [hx]))
    simp [expandRows, buildMeasure_eq, hr, ih, List.enumFrom]

theorem expandRows_eq_none (dev mid : String) (beg step : Int) :
    ∀ (i : Nat) (rows : List (List (Option ℚ))) (r : List (Option ℚ)),
      r ∈ rows → r.length < 9 →
      expandRows dev mid beg step i rows = none
  | i, row :: rest, r, hmem, hshort => by
    rcases List.mem_cons.mp hmem with h | h
    · subst h
      have hw : ¬ 9 ≤ r.length := by omega
      simp [expandRows, buildMeasure_eq, hw]
    · have ih := expandRows_eq_none dev mid beg step (i + 1) rest r h hshort
      cases hb : buildMeasure dev mid beg step i row with
      | none => simp [expandRows, hb]
      | some m => simp [expandRows, hb, ih]

theorem expandBody_eq_some (dev mid : String) :
    ∀ (body : List measureBody),
      (∀ b ∈ body, ∀ r ∈ b.Value, 9 ≤ r.length) →
      expandBody dev mid body =
        some ((body.map (fun b => (b.Value.enumFrom 0).map
          (fun p => recordOfRow dev mid
            (b.BeginTime + b.StepTime * (p.1 : Int)) p.2))).flatten)
  | [], _ => by simp [expandBody]
  | b :: rest, h => by
    have hb := expandRows_eq_some dev mid b.BeginTime b.StepTime 0 b.Value
      (h b (by simp))
    have ih := expandBody_eq_some dev mid rest
      (fun x hx => h x (by simp [hx]))
    simp [expandBody, hb, ih]

theorem expandBody_eq_none (dev mid : String) :
    ∀ (body : List measureBody) (b : measureBody) (r : List (Option ℚ)),
      b ∈ body → r ∈ b.Value → r.length < 9 →
      expandBody dev mid body = none
  | blk :: rest, b, r, hmem, hr, hshort => by
    rcases List.mem_cons.mp hmem with h | h
    · subst h
      have hrows := expandRows_eq_none dev mid b.BeginTime b.StepTime 0
        b.Value r hr hshort
      simp [expandBody, hrows]
    · have ih := expandBody_eq_none dev mid rest b r h hr hshort
      cases hb : expandRows dev mid blk.BeginTime blk.StepTime 0 blk.Value with
      | none => simp [expandBody, hb]
      | some ms => simp [expandBody, hb, ih]

theorem expandRows_ids (dev mid : String) (beg step : Int) :
    ∀ (i : Nat) (rows : List (List (Option ℚ))) (ms : List Measure),
      expandRows dev mid beg step i rows = some ms →
      ∀ m ∈ ms, m.DeviceID = dev ∧ m.ModuleID = mid
  | _, [], ms, h => by
    simp [expandRows] at h
    subst h
    simp
  | i, row :: rest, ms, h => by
    intro m hm
    rw [expandRows] at h
    cases hb : buildMeasure dev mid beg step i row with
    | none => simp [hb] at h
    | some m0 =>
      rw [hb] at h
      cases hrest : expandRows dev mid beg step (i + 1) rest with
      | none => simp [hrest] at h
      | some ms2 =>
        rw [hrest] at h
        simp only [Option.some.injEq] at h
        subst h
        rcases List.mem_cons.mp hm with h | h
        · subst h
          rw [buildMeasure_eq] at hb
          by_cases hw : 9 ≤ row.length
          · simp [hw] at hb
            simp [← hb, recordOfRow]
          · simp [hw] at hb
        · exact expandRows_ids dev mid beg step (i + 1) rest ms2 hrest m h

theorem expandBody_ids (dev mid : String) :
    ∀ (body : List measureBody) (ms : List Measure),
      expandBody dev mid body = some ms →
      ∀ m ∈ ms, m.DeviceID = dev ∧ m.ModuleID = mid
  | [], ms, h => by
    simp [expandBody] at h
    subst h
    simp
  | blk :: rest, ms, h => by
    intro m hm
    rw [expandBody] at h
    cases hb : expandRows dev mid blk.BeginTime blk.StepTime 0 blk.Value with
    | none => simp [hb] at h
    | some ms1 =>
      rw [hb] at h
      cases hrest : expandBody dev mid rest with
      | none => simp [hrest] at h
      | some ms2 =>
        rw [hrest] at h
        simp only [Option.some.injEq] at h
        subst h
        rcases List.mem_append.mp hm with h | h
        · exact expandRows_ids dev mid blk.BeginTime blk.StepTime 0
            blk.Value ms1 hb m h
        · exact expandBody_ids dev mid rest ms2 hrest m h

theorem expandBody_all_empty (dev mid : String) :
    ∀ (body : List measureBody), (∀ b ∈ body, b.Value = []) →
      expandBody dev mid body = some []
  | [], _ => by simp [expandBody]
  | b :: rest, h => by
    have hb : b.Value = [] := h b (by simp)
    have ih := expandBody_all_empty dev mid rest (fun x hx => h x (by simp [hx]))
    simp [expandBody, hb, expandRows, ih]

theorem recordOfRow_take (dev mid : String) (ts : Int)
    (row : List (Option ℚ)) :
    recordOfRow dev mid ts (row.take 9) = recordOfRow dev mid ts row := by
  simp [recordOfRow, List.getD, List.getElem?_take]

theorem expandRows_take (dev mid : String) (beg step : Int) :
    ∀ (i : Nat) (rows : List (List (Option ℚ))),
      (∀ r ∈ rows, 9 ≤ r.length) →
      expandRows dev mid beg step i (rows.map (fun r => r.take 9)) =
        expandRows dev mid beg step i rows
  | _, [], _ => by simp
  | i, r :: rest, h => by
    have hr : 9 ≤ r.length := h r (by simp)
    have hr9 : 9 ≤ (r.take 9).length := by
      simp [List.length_take]
      omega
    have ih := expandRows_take dev mid beg step (i + 1) rest
      (fun x hx => h x (by simp [hx]))
    simp only [List.map_cons]
    rw [expandRows, expandRows, buildMeasure_eq, buildMeasure_eq, if_pos hr,
      if_pos hr9, recordOfRow_take, ih]

theorem expandBody_take (dev mid : String) :
    ∀ (body : List measureBody),
      (∀ b ∈ body, ∀ r ∈ b.Value, 9 ≤ r.length) →
      expandBody dev mid (body.map (fun b =>
          ⟨b.BeginTime, b.StepTime, b.Value.map (fun r => r.take 9)⟩)) =
        expandBody dev mid body
  | [], _ => by simp
  | b :: rest, h => by
    have hb := expandRows_take dev mid b.BeginTime b.StepTime 0 b.Value
      (h b (by simp))
    have ih := expandBody_take dev mid rest (fun x hx => h x (by simp [hx]))
    simp only [List.map_cons]
    rw [expandBody, expandBody]
    simp only []
    rw [hb, ih]

theorem build_success_of_expand (dev mid : String) (body : List measureBody)
    (ms : List Measure) (h : expandBody dev mid body = some ms) :
    ∃ o, buildGetMeasureResponse dev mid (Except.ok body) =
      GoMeasures.success o := by
  by_cases hl : ms.length = 0
  · exact ⟨none, by simp [buildGetMeasureResponse, h, hl]⟩
  · exact ⟨some ms, by simp [buildGetMeasureResponse, h, hl]⟩

theorem build_ok_inv (dev mid : String) (data : Except String (List measureBody))
    (ms : List Measure)
    (h : buildGetMeasureResponse dev mid data = GoMeasures.success (some ms)) :
    ∃ body, data = Except.ok body ∧ expandBody dev mid body = some ms ∧
      ms ≠ [] := by
  cases data with
  | error e => simp [buildGetMeasureResponse] at h
  | ok body =>
    refine ⟨body, rfl, ?_⟩
    cases hx : expandBody dev mid body with
    | none => simp [buildGetMeasureResponse, hx] at h
    | some measures =>
      by_cases hl : measures.length = 0
      · simp [buildGetMeasureResponse, hx, hl] at h
      · simp [buildGetMeasureResponse, hx, hl] at h
        subst h
        exact ⟨rfl, by simpa [← List.length_eq_zero] using hl⟩

/-!  Claim theorems. -/

/-- C1: for every well-formed single-block response with `N` rows (each row
carrying the 9 configured metric cells), the decoder produces exactly `N`
records, and record `i` has timestamp `BeginTime + StepTime * i`. -/
theorem C1_single_block_expansion (dev mid : String) (b : measureBody)
    (h : ∀ row ∈ b.Value, row.length = 9) :
    ∃ ms : List Measure,
      expandBody dev mid [b] = some ms ∧
      ms.length = b.Value.length ∧
      (∀ i (hi : i < ms.length),
        (ms.get ⟨i, hi⟩).Timestamp = b.BeginTime + b.StepTime * (i : Int)) ∧
      buildGetMeasureResponse dev mid (Except.ok [b]) =
        (if ms.length = 0 then GoMeasures.success none
         else GoMeasures.success (some ms)) := by
  have hw : ∀ blk ∈ [b], ∀ r ∈ blk.Value, 9 ≤ r.length := by
    intro blk hblk r hr
    simp only [List.mem_singleton] at hblk
    subst hblk
    exact le_of_eq (h r hr).symm
  have he : expandBody dev mid [b] =
      some ((b.Value.enumFrom 0).map
        (fun p => recordOfRow dev mid
          (b.BeginTime + b.StepTime * (p.1 : Int)) p.2)) := by
    simpa using expandBody_eq_some dev mid [b] hw
  refine ⟨_, he, ?_, ?_, ?_⟩
  · simp
  · intro i hi
    simp only [List.get_eq_getElem, List.getElem_map, List.getElem_enumFrom]
    simp [recordOfRow]
  · simp [buildGetMeasureResponse, he]

/-- C1 witness: the decoder applied to a concrete two-row block. -/
theorem C1_single_block_expansion_witness :
    ∃ ms : List Measure,
      expandBody "d" "m" [⟨1000, 60,
        [[some 21, none, some 55, some 1013, none, none, none, none, none],
         [some 0, some 400, some 0, some 1012, some 30, none, none, none,
          none]]⟩] = some ms ∧
      ms.length = 2 ∧
      (∀ i (hi : i < ms.length),
        (ms.get ⟨i, hi⟩).Timestamp = 1000 + 60 * (i : Int)) ∧
      buildGetMeasureResponse "d" "m" (Except.ok [⟨1000, 60,
        [[some 21, none, some 55, some 1013, none, none, none, none, none],
         [some 0, some 400, some 0, some 1012, some 30, none, none, none,
          none]]⟩]) =
        (if ms.length = 0 then GoMeasures.success none
         else GoMeasures.success (some ms)) :=
  C1_single_block_expansion "d" "m" ⟨1000, 60,
    [[some 21, none, some 55, some 1013, none, none, none, none, none],
     [some 0, some 400, some 0, some 1012, some 30, none, none, none,
      none]]⟩ (by decide)

/-- C2: an absent cell resolves to absent, and a present cell equal to `0.0`
also resolves to absent, under both the float helper and the int helper. -/
theorem C2_zero_collapses (v : Option ℚ) (hv : v = none ∨ v = some 0) :
    handleFloat v = none ∧ handleInt v = none := by
  rcases hv with h | h <;> subst h <;> simp [handleFloat, handleInt]

/-- C2 witness: both helpers collapse the literal-zero cell and the null
cell. -/
theorem C2_zero_collapses_witness :
    (handleFloat (some 0) = none ∧ handleInt (some 0) = none) ∧
    (handleFloat none = none ∧ handleInt none = none) :=
  ⟨C2_zero_collapses (some 0) (Or.inr rfl),
   C2_zero_collapses none (Or.inl rfl)⟩

/-- C3: a present non-zero cell `v` resolves to `v` under the float helper
and to `v` truncated toward zero (floor for non-negative `v`, ceiling for
negative `v`) under the int helper. -/
theorem C3_nonzero_passthrough (v : ℚ) (hv : v ≠ 0) :
    handleFloat (some v) = some v ∧
    handleInt (some v) = some (truncTowardZero v) ∧
    (0 ≤ v → truncTowardZero v = ⌊v⌋) ∧
    (v < 0 → truncTowardZero v = ⌈v⌉) := by
  refine ⟨by simp [handleFloat, hv], by simp [handleInt, hv], ?_, ?_⟩
  · intro h
    simp [truncTowardZero, h]
  · intro h
    simp [truncTowardZero, not_le.mpr h]

/-- C3 witness: `5/2` passes through the float helper and truncates to `2`;
`-7/2` truncates toward zero to `-3`. -/
theorem C3_nonzero_passthrough_witness :
    handleFloat (some (5/2 : ℚ)) = some (5/2) ∧
    handleInt (some (5/2 : ℚ)) = some 2 ∧
    handleInt (some (-7/2 : ℚ)) = some (-3) := by
  have h1 := C3_nonzero_passthrough (5/2) (by norm_num)
  have h2 := C3_nonzero_passthrough (-7/2) (by norm_num)
  refine ⟨h1.1, ?_, ?_⟩
  · rw [h1.2.1]
    norm_num [truncTowardZero]
  · rw [h2.2.1]
    norm_num [truncTowardZero, Int.ceil_neg]

/-- C4 counterexample: on a width-7 row the decoder does not surface an
error-return (decoding-failure) outcome to the caller; it hits an
out-of-range slice index, i.e. a runtime panic. -/
theorem C4_counterexample :
    buildGetMeasureResponse "d" "m"
        (Except.ok [⟨1000, 60, [List.replicate 7 (some 1)]⟩]) =
      GoMeasures.panic ∧
    (buildGetMeasureResponse "d" "m"
        (Except.ok [⟨1000, 60, [List.replicate 7 (some 1)]⟩])).isFail =
      false := by
  decide

/-- C4 (amended): for every response containing a row with fewer than 9
cells, decoding aborts with a runtime panic (out-of-range index) — not a
truncated record, not a silent skip, not an empty result, and not a returned
error value. -/
theorem C4_short_row_panics (dev mid : String) (body : List measureBody)
    (b : measureBody) (r : List (Option ℚ))
    (hb : b ∈ body) (hr : r ∈ b.Value) (hshort : r.length < 9) :
    buildGetMeasureResponse dev mid (Except.ok body) = GoMeasures.panic ∧
    (GoMeasures.panic).isFail = false := by
  have he := expandBody_eq_none dev mid body b r hb hr hshort
  exact ⟨by simp [buildGetMeasureResponse, he], rfl⟩

/-- C4 witness: the amended claim at a concrete width-7 row. -/
theorem C4_short_row_panics_witness :
    buildGetMeasureResponse "dev-a" "mod-b"
        (Except.ok [⟨500, 10, [List.replicate 7 (some 2)]⟩]) =
      GoMeasures.panic ∧
    (GoMeasures.panic).isFail = false :=
  C4_short_row_panics "dev-a" "mod-b" [⟨500, 10, [List.replicate 7 (some 2)]⟩]
    ⟨500, 10, [List.replicate 7 (some 2)]⟩ (List.replicate 7 (some 2))
    (by simp) (by simp) (by simp)

/-- C5: a response with zero blocks, or whose blocks all have zero rows,
decodes to the explicit no-data return (`nil, nil`), which is not the
error-return outcome. -/
theorem C5_empty_is_no_data (dev mid : String) (body : List measureBody)
    (h : ∀ b ∈ body, b.Value = []) :
    buildGetMeasureResponse dev mid (Except.ok body) =
      GoMeasures.success none ∧
    (GoMeasures.success none).isFail = false := by
  have he := expandBody_all_empty dev mid body h
  exact ⟨by simp [buildGetMeasureResponse, he], rfl⟩

/-- C5 witness: the zero-block response and an all-empty-block response. -/
theorem C5_empty_is_no_data_witness :
    (buildGetMeasureResponse "dev-a" "mod-b" (Except.ok []) =
        GoMeasures.success none ∧
      (GoMeasures.success none).isFail = false) ∧
    (buildGetMeasureResponse "dev-a" "mod-b"
        (Except.ok [⟨1000, 60, []⟩]) = GoMeasures.success none ∧
      (GoMeasures.success none).isFail = false) :=
  ⟨C5_empty_is_no_data "dev-a" "mod-b" [] (by simp),
   C5_empty_is_no_data "dev-a" "mod-b" [⟨1000, 60, []⟩] (by simp)⟩

/-- C6: when decoding yields a non-empty record sequence, the newest read
returns the record at the last array position; when decoding yields the
no-data value, it returns the no-data outcome, which is not an error. -/
theorem C6_newest_read (dev mid : String)
    (data : Except String (List measureBody)) (ms : List Measure)
    (m : Measure) :
    (buildGetMeasureResponse dev mid data = GoMeasures.success (some ms) →
      ms.getLast? = some m →
      GetMeasureByNewest dev mid data = GoNewest.ok m) ∧
    (buildGetMeasureResponse dev mid data = GoMeasures.success none →
      GetMeasureByNewest dev mid data = GoNewest.noData ∧
      (GoNewest.noData).isFail = false) := by
  constructor
  · intro h hlast
    simp [GetMeasureByNewest, h, hlast]
  · intro h
    exact ⟨by simp [GetMeasureByNewest, h], rfl⟩

/-- C6 witness: the newest read on a concrete two-row response returns the
second (last) record, and on an empty response returns no-data. -/
theorem C6_newest_read_witness :
    (GetMeasureByNewest "d" "m"
        (Except.ok [⟨1000, 60, [List.replicate 9 (some 1),
          List.replicate 9 (some 2)]⟩]) =
      GoNewest.ok (recordOfRow "d" "m" 1060 (List.replicate 9 (some 2)))) ∧
    (GetMeasureByNewest "d" "m" (Except.ok []) = GoNewest.noData ∧
      (GoNewest.noData).isFail = false) :=
  ⟨(C6_newest_read "d" "m"
      (Except.ok [⟨1000, 60, [List.replicate 9 (some 1),
        List.replicate 9 (some 2)]⟩])
      [recordOfRow "d" "m" 1000 (List.replicate 9 (some 1)),
       recordOfRow "d" "m" 1060 (List.replicate 9 (some 2))]
      (recordOfRow "d" "m" 1060 (List.replicate 9 (some 2)))).1
    (by decide) (by decide),
   (C6_newest_read "d" "m" (Except.ok []) []
      (recordOfRow "d" "m" 1060 (List.replicate 9 (some 2)))).2
    (by decide)⟩

/-- C7: on a well-formed response the output is the concatenation, in input
order, of each block's per-row records in input order — no sorting, no
deduplication. -/
theorem C7_order_preserving (dev mid : String) (body : List measureBody)
    (h : ∀ b ∈ body, ∀ r ∈ b.Value, 9 ≤ r.length) :
    ∃ ms : List Measure,
      expandBody dev mid body = some ms ∧
      ms = (body.map (fun b => (b.Value.enumFrom 0).map
        (fun p => recordOfRow dev mid
          (b.BeginTime + b.StepTime * (p.1 : Int)) p.2))).flatten ∧
      buildGetMeasureResponse dev mid (Except.ok body) =
        (if ms.length = 0 then GoMeasures.success none
         else GoMeasures.success (some ms)) := by
  have he := expandBody_eq_some dev mid body h
  exact ⟨_, he, rfl, by simp [buildGetMeasureResponse, he]⟩

/-- C7 witness: a concrete two-block response flattens in input order. -/
theorem C7_order_preserving_witness :
    ∃ ms : List Measure,
      expandBody "d" "m" [⟨1000, 60, [List.replicate 9 (some 1)]⟩,
        ⟨2000, 30, [List.replicate 9 (some 2)]⟩] = some ms ∧
      ms = (([⟨1000, 60, [List.replicate 9 (some 1)]⟩,
        ⟨2000, 30, [List.replicate 9 (some 2)]⟩] :
          List measureBody).map (fun b => (b.Value.enumFrom 0).map
        (fun p => recordOfRow "d" "m"
          (b.BeginTime + b.StepTime * (p.1 : Int)) p.2))).flatten ∧
      buildGetMeasureResponse "d" "m"
          (Except.ok [⟨1000, 60, [List.replicate 9 (some 1)]⟩,
            ⟨2000, 30, [List.replicate 9 (some 2)]⟩]) =
        (if ms.length = 0 then GoMeasures.success none
         else GoMeasures.success (some ms)) :=
  C7_order_preserving "d" "m" [⟨1000, 60, [List.replicate 9 (some 1)]⟩,
    ⟨2000, 30, [List.replicate 9 (some 2)]⟩] (by decide)

/-- C8: every record produced by a successful decode carries exactly the
device and module identifier strings the caller supplied. -/
theorem C8_ids_unmodified (dev mid : String)
    (data : Except String (List measureBody)) (ms : List Measure)
    (m : Measure)
    (h : buildGetMeasureResponse dev mid data = GoMeasures.success (some ms))
    (hm : m ∈ ms) :
    m.DeviceID = dev ∧ m.ModuleID = mid := by
  obtain ⟨body, rfl, hx, hne⟩ := build_ok_inv dev mid data ms h
  exact expandBody_ids dev mid body ms hx m hm

/-- C8 witness: the identifiers on a concretely decoded record. -/
theorem C8_ids_unmodified_witness :
    (recordOfRow "dev-a" "mod-b" 1000
        (List.replicate 9 (some 3))).DeviceID = "dev-a" ∧
    (recordOfRow "dev-a" "mod-b" 1000
        (List.replicate 9 (some 3))).ModuleID = "mod-b" :=
  C8_ids_unmodified "dev-a" "mod-b"
    (Except.ok [⟨1000, 60, [List.replicate 9 (some 3)]⟩])
    [recordOfRow "dev-a" "mod-b" 1000 (List.replicate 9 (some 3))]
    (recordOfRow "dev-a" "mod-b" 1000 (List.replicate 9 (some 3)))
    (by decide) (by simp)

/-- C9: a successful decode never returns an empty non-nil sequence, so the
newest read's last-element access is always in bounds and returns a
record. -/
theorem C9_success_nonempty (dev mid : String)
    (data : Except String (List measureBody)) (ms : List Measure)
    (h : buildGetMeasureResponse dev mid data = GoMeasures.success (some ms)) :
    ms ≠ [] ∧ ∃ m, GetMeasureByNewest dev mid data = GoNewest.ok m := by
  obtain ⟨body, rfl, hx, hne⟩ := build_ok_inv dev mid data ms h
  refine ⟨hne, ?_⟩
  obtain ⟨m, hm⟩ := Option.isSome_iff_exists.mp (List.getLast?_isSome.mpr hne)
  exact ⟨m, by simp [GetMeasureByNewest, h, hm]⟩

/-- C9 witness: the invariant at a concrete one-row response. -/
theorem C9_success_nonempty_witness :
    [recordOfRow "d" "m" 1000 (List.replicate 9 (some 5))] ≠
      ([] : List Measure) ∧
    ∃ m, GetMeasureByNewest "d" "m"
        (Except.ok [⟨1000, 60, [List.replicate 9 (some 5)]⟩]) =
      GoNewest.ok m :=
  C9_success_nonempty "d" "m"
    (Except.ok [⟨1000, 60, [List.replicate 9 (some 5)]⟩])
    [recordOfRow "d" "m" 1000 (List.replicate 9 (some 5))] (by decide)

/-- C10: rows with more than 9 cells decode successfully, and the cells past
index 8 are ignored: truncating every row to its first 9 cells leaves the
decoder's output unchanged. -/
theorem C10_wide_rows_ignored (dev mid : String) (body : List measureBody)
    (h : ∀ b ∈ body, ∀ r ∈ b.Value, 9 ≤ r.length) :
    (∃ o, buildGetMeasureResponse dev mid (Except.ok body) =
        GoMeasures.success o) ∧
    buildGetMeasureResponse dev mid (Except.ok body) =
      buildGetMeasureResponse dev mid (Except.ok (body.map (fun b =>
        ⟨b.BeginTime, b.StepTime, b.Value.map (fun r => r.take 9)⟩))) := by
  have he := expandBody_eq_some dev mid body h
  have ht := expandBody_take dev mid body h
  exact ⟨build_success_of_expand dev mid body _ he,
    by simp [buildGetMeasureResponse, ht]⟩

/-- C10 witness: a concrete width-10 row decodes like its first 9 cells. -/
theorem C10_wide_rows_ignored_witness :
    (∃ o, buildGetMeasureResponse "d" "m"
        (Except.ok [⟨1000, 60, [List.replicate 10 (some 4)]⟩]) =
      GoMeasures.success o) ∧
    buildGetMeasureResponse "d" "m"
        (Except.ok [⟨1000, 60, [List.replicate 10 (some 4)]⟩]) =
      buildGetMeasureResponse "d" "m"
        (Except.ok (([⟨1000, 60, [List.replicate 10 (some 4)]⟩] :
          List measureBody).map (fun b =>
            ⟨b.BeginTime, b.StepTime, b.Value.map (fun r => r.take 9)⟩))) :=
  C10_wide_rows_ignored "d" "m" [⟨1000, 60, [List.replicate 10 (some 4)]⟩]
    (by decide)

end Netatmo
